import Mathlib

/-!
# Verification of the activity log store (`src/lib/activity.py`, class `ActivityLogger`)

Shallow embedding of the activity log store and query engine:

* An `ActivityRecord` models one JSON object stored as one line of a partition
  file.  Every field is optional because a record read back from disk is an
  arbitrary JSON object that may lack any key (`dict.get` semantics); `details`
  values are abstracted to strings since no operation ever inspects them.
* A partition file's content is a `List Line`: each physical line either parses
  as a record object (`Line.record`), is non-blank but fails `json.loads`
  (`Line.corrupt`), or is blank after stripping (`Line.blank`).  This models the
  outcome of the external `json.loads` call per line.
* The store state (`Store`) carries the `enabled` flag, the
  `current_log_file` name computed once in `__init__` from
  `datetime.now().strftime('%Y-%m-%d')` (the *local* calendar day at
  construction time), and the partition files of the log directory.
* Wall-clock readings are explicit parameters: `utcNowIso` stands for
  `datetime.utcnow().isoformat()`, `nowEpoch` for `datetime.utcnow().timestamp()`
  (abstracted to integer seconds), and `parseTs` for
  `datetime.fromisoformat(...).timestamp()`, which is an external library
  function; a timestamp it cannot parse is modelled by `parseTs` returning
  `none`, matching the `ValueError` that propagates in Python.
* Python string comparison (used on ISO timestamp strings and file names) is
  code-point lexicographic; it is embedded as `charsCmp`/`pyStrLt`/`pyStrLe`
  below.  Python's stable `list.sort(key=..., reverse=True)` is embedded as
  `List.insertionSort` with the reflexive "greater or equal on the key"
  relation, which is a stable sort producing the same output as any stable
  sort under the same total preorder.
* Python slicing `xs[offset : offset + limit]` (arbitrary integers, no
  validation) is embedded by `pySlice` with CPython's index-normalisation
  rules.
-/

namespace ActivityLog

/-! ## Python string comparison (code-point lexicographic) -/

/-- Three-way comparison of characters by code point, as Python compares the
characters of a string. -/
def chCmp (a b : Char) : Ordering :=
  if a = b then .eq else if a.toNat < b.toNat then .lt else .gt

/-- Three-way lexicographic comparison of character lists; a strict prefix is
smaller, as in Python. -/
def charsCmp : List Char → List Char → Ordering
  | [], [] => .eq
  | [], _ :: _ => .lt
  | _ :: _, [] => .gt
  | a :: as, b :: bs =>
    match chCmp a b with
    | .eq => charsCmp as bs
    | o => o

/-- Python's `a < b` on strings. -/
def pyStrLt (a b : String) : Bool := charsCmp a.data b.data == .lt

/-- Python's `a <= b` on strings (total order: `a <= b` iff `¬ b < a`). -/
def pyStrLe (a b : String) : Bool := !(pyStrLt b a)

/-! ## Data model -/

/-- One activity record: the JSON object stored on one line of a partition
file.  Fields are `Option`s because an object read back from disk may lack any
key (`activity.get(...)` then yields `None`); `log` always writes all six keys.
The `details` mapping is abstracted to an association list of strings — no
operation of the store ever looks inside it. -/
structure ActivityRecord where
  timestamp : Option String
  user : Option String
  activity : Option String
  description : Option String
  source : Option String
  details : List (String × String)
deriving DecidableEq, Repr

/-- The sort/filter key `activity.get("timestamp", "")`. -/
def tsOrEmpty (r : ActivityRecord) : String := r.timestamp.getD ""

/-- One physical line of a partition file, by the outcome of
`line.strip()` / `json.loads(line)`: a record object, a non-blank line that
raises `json.JSONDecodeError`, or a blank line. -/
inductive Line where
  | record (r : ActivityRecord)
  | corrupt
  | blank
deriving DecidableEq, Repr

/-- State of an `ActivityLogger`: the `enabled` flag, the file name
`self.current_log_file` fixed in `__init__`, and the partition files of the
log directory, each a file name paired with its list of lines. -/
structure Store where
  enabled : Bool
  currentLogFile : String
  files : List (String × List Line)
deriving DecidableEq, Repr

/-- The `ACTIVITY_TYPES` class attribute: the nine well-known activity tags
with their canned descriptions. -/
def ACTIVITY_TYPES : List (String × String) :=
  [("login", "User logged in"),
   ("logout", "User logged out"),
   ("config_change", "Configuration changed"),
   ("input_change", "Input value changed"),
   ("save", "Data saved"),
   ("load", "Data loaded"),
   ("error", "Error occurred"),
   ("warning", "Warning issued"),
   ("info", "Informational event")]

/-- `__init__`: `self.current_log_file` is named from
`datetime.now().strftime('%Y-%m-%d')` — the local calendar day at store
construction time, passed here as `localDayAtInit`. -/
def initStore (localDayAtInit : String) (enabled : Bool)
    (files : List (String × List Line)) : Store :=
  { enabled := enabled,
    currentLogFile := "activities_" ++ localDayAtInit ++ ".jsonl",
    files := files }

/-- `self.enabled = os.environ.get("ACTIVITY_LOG_ENABLED", "true").lower() == "true"`. -/
def initEnabled (envVal : Option String) : Bool :=
  (envVal.getD "true").toLower == "true"

/-! ## `ActivityLogger.log` -/

/-- The `activity` dict constructed by `log`: timestamp is
`datetime.utcnow().isoformat() + "Z"`, the description is
`self.ACTIVITY_TYPES.get(activity_type, activity_type)`, and `details or {}`
replaces a missing details mapping by the empty one. -/
def loggedRecord (user activity_type : String) (details : Option (List (String × String)))
    (source utcNowIso : String) : ActivityRecord :=
  { timestamp := some (utcNowIso ++ "Z"),
    user := some user,
    activity := some activity_type,
    description := some ((ACTIVITY_TYPES.lookup activity_type).getD activity_type),
    source := some source,
    details := details.getD [] }

/-- Appending one line to the named file, creating the file if absent
(`open(self.current_log_file, "a")`). -/
def appendToFile (name : String) (l : Line) :
    List (String × List Line) → List (String × List Line)
  | [] => [(name, [l])]
  | (n, ls) :: rest =>
    if n = name then (n, ls ++ [l]) :: rest else (n, ls) :: appendToFile name l rest

/-- `ActivityLogger.log`: returns `{}` (modelled `none`) without touching the
files when the store is disabled; otherwise builds the record, appends it as
one line to `self.current_log_file` and returns it. -/
def log (s : Store) (user activity_type : String)
    (details : Option (List (String × String))) (source utcNowIso : String) :
    Option ActivityRecord × Store :=
  if !s.enabled then (none, s)
  else
    let r := loggedRecord user activity_type details source utcNowIso
    (some r, { s with files := appendToFile s.currentLogFile (Line.record r) s.files })

/-! ## `ActivityLogger.get_activities` -/

/-- The keyword arguments of `get_activities` with their Python defaults. -/
structure QueryArgs where
  user : Option String := none
  activity_type : Option String := none
  start_time : Option String := none
  end_time : Option String := none
  limit : Int := 100
  offset : Int := 0
deriving DecidableEq, Repr

/-- Python truthiness of an optional string argument: `None` and `""` are
falsy, every other string is truthy. -/
def truthy : Option String → Bool
  | none => false
  | some s => !(s == "")

/-- Filter `if user and activity.get("user") != user: continue`. -/
def passUser (q : QueryArgs) (r : ActivityRecord) : Bool :=
  !truthy q.user || (r.user == q.user)

/-- Filter `if activity_type and activity.get("activity") != activity_type: continue`. -/
def passType (q : QueryArgs) (r : ActivityRecord) : Bool :=
  !truthy q.activity_type || (r.activity == q.activity_type)

/-- Filter `if start_time and activity.get("timestamp", "") < start_time: continue`. -/
def passStart (q : QueryArgs) (r : ActivityRecord) : Bool :=
  !truthy q.start_time || !pyStrLt (tsOrEmpty r) (q.start_time.getD "")

/-- Filter `if end_time and activity.get("timestamp", "") > end_time: continue`. -/
def passEnd (q : QueryArgs) (r : ActivityRecord) : Bool :=
  !truthy q.end_time || !pyStrLt (q.end_time.getD "") (tsOrEmpty r)

/-- A record survives all four `continue` filters of the read loop. -/
def passesFilters (q : QueryArgs) (r : ActivityRecord) : Bool :=
  passUser q r && passType q r && passStart q r && passEnd q r

/-- The `for line in f` loop body: skip blank lines, skip lines that fail to
parse as JSON, apply the filters, collect the survivors in file order. -/
def scanLines (q : QueryArgs) : List Line → List ActivityRecord
  | [] => []
  | Line.blank :: rest => scanLines q rest
  | Line.corrupt :: rest => scanLines q rest
  | Line.record r :: rest =>
    if passesFilters q r then r :: scanLines q rest else scanLines q rest

/-- Partition files are visited in `sorted(..., reverse=True)` order of their
names: descending, and stable. -/
def fileGe (a b : String × List Line) : Prop := pyStrLe b.1 a.1 = true

instance : DecidableRel fileGe := fun a b =>
  inferInstanceAs (Decidable (pyStrLe b.1 a.1 = true))

/-- Newest-first order on records:
`activities.sort(key=lambda x: x.get("timestamp", ""), reverse=True)` compares
the timestamp strings, descending, and is stable. -/
def recGe (a b : ActivityRecord) : Prop := pyStrLe (tsOrEmpty b) (tsOrEmpty a) = true

instance : DecidableRel recGe := fun a b =>
  inferInstanceAs (Decidable (pyStrLe (tsOrEmpty b) (tsOrEmpty a) = true))

/-- All records surviving the filters, collected across all partition files in
descending file-name order. -/
def collectRecords (q : QueryArgs) (s : Store) : List ActivityRecord :=
  (List.insertionSort fileGe s.files).flatMap (fun f => scanLines q f.2)

/-- CPython list slicing `xs[a : b]` with step 1: each bound is shifted by the
length if negative, then clamped to `[0, n]`. -/
def pySlice (a b : Int) (xs : List α) : List α :=
  let n := xs.length
  let lo : Nat := if a < 0 then ((n : Int) + a).toNat else min a.toNat n
  let hi : Nat := if b < 0 then ((n : Int) + b).toNat else min b.toNat n
  (xs.take hi).drop lo

/-- `ActivityLogger.get_activities`: collect the surviving records of all
partition files, sort newest-first, and return
`activities[offset : offset + limit]`. -/
def get_activities (s : Store) (q : QueryArgs) : List ActivityRecord :=
  pySlice q.offset (q.offset + q.limit) (List.insertionSort recGe (collectRecords q s))

/-! ## `ActivityLogger.get_activity_stats` -/

/-- Model of `a["timestamp"].replace("Z", "+00:00")`: the pattern is the single
character `Z`, so the replacement acts character by character. -/
def replaceZ (s : String) : String :=
  ⟨s.data.flatMap (fun c => if c = 'Z' then "+00:00".data else [c])⟩

/-- One step of `collections.Counter` construction: increment the count of `x`,
inserting it at the end on first encounter (dict insertion order). -/
def countBump (x : String) : List (String × Nat) → List (String × Nat)
  | [] => [(x, 1)]
  | (k, c) :: rest =>
    if k = x then (k, c + 1) :: rest else (k, c) :: countBump x rest

/-- `collections.Counter(xs)` as an association list in first-encounter key
order. -/
def countBy (xs : List String) : List (String × Nat) :=
  xs.foldl (fun acc x => countBump x acc) []

/-- Order used by `Counter.most_common`: by count, descending, stable. -/
def countGe (p q : String × Nat) : Prop := q.2 ≤ p.2

instance : DecidableRel countGe := fun p q => Nat.decLe q.2 p.2

/-- `Counter(xs).most_common(n)`: entries sorted by count descending (stable,
so ties keep first-encounter order), truncated to `n`. -/
def mostCommon (n : Nat) (xs : List String) : List (String × Nat) :=
  (List.insertionSort countGe (countBy xs)).take n

/-- The `recent_activities` list comprehension: keep the records whose
timestamp, with `Z` replaced by `+00:00`, parses and is strictly newer than
the cutoff.  A missing `"timestamp"` key (`KeyError`) or an unparsable
timestamp (`ValueError` from `fromisoformat`) aborts the whole computation,
modelled by `none`. -/
def selectRecent (parseTs : String → Option Int) (cutoff : Int) :
    List ActivityRecord → Option (List ActivityRecord)
  | [] => some []
  | a :: rest => do
    let ts ← a.timestamp
    let t ← parseTs (replaceZ ts)
    let r ← selectRecent parseTs cutoff rest
    pure (if cutoff < t then a :: r else r)

/-- Extraction of a mandatory field (`a["user"]`, `a["activity"]`) from every
record; a missing key raises `KeyError`, modelled by `none`. -/
def fieldAll (f : ActivityRecord → Option String) :
    List ActivityRecord → Option (List String)
  | [] => some []
  | a :: rest => do
    let x ← f a
    let xs ← fieldAll f rest
    pure (x :: xs)

/-- The `stats` dictionary returned by `get_activity_stats`. -/
structure StatsResult where
  total_activities : Nat
  unique_users : Nat
  activity_types : List (String × Nat)
  top_users : List (String × Nat)
  period_days : Int
deriving DecidableEq, Repr

/-- The internal fetch `self.get_activities(limit=10000)`. -/
def statsQuery : QueryArgs := { limit := 10000 }

/-- `ActivityLogger.get_activity_stats`: fetch up to 10000 records, keep those
with parsed timestamp strictly newer than `now - days*24*60*60`, and aggregate.
`parseTs` models `datetime.fromisoformat(...).timestamp()` (integer seconds)
and `nowEpoch` models `datetime.utcnow().timestamp()`. -/
def get_activity_stats (parseTs : String → Option Int) (nowEpoch : Int)
    (s : Store) (days : Int) : Option StatsResult := do
  let activities := get_activities s statsQuery
  let cutoff := nowEpoch - days * (24 * 60 * 60)
  let recent ← selectRecent parseTs cutoff activities
  let users ← fieldAll (fun a => a.user) recent
  let acts ← fieldAll (fun a => a.activity) recent
  pure { total_activities := recent.length,
         unique_users := users.dedup.length,
         activity_types := countBy acts,
         top_users := mostCommon 10 users,
         period_days := days }

/-- Projection of a line to its parsed record, if any: the lines a scan keeps
before filtering. -/
def lineRecord : Line → Option ActivityRecord
  | Line.record r => some r
  | Line.corrupt => none
  | Line.blank => none

/-! ## Concrete example data for the per-claim witnesses and counterexamples -/

/-- A well-formed stored record, as `log` would have written it. -/
def mkRecord (ts u act : String) : ActivityRecord :=
  { timestamp := some ts, user := some u, activity := some act,
    description := some act, source := some "web", details := [] }

/-- A query with only a user filter and a limit (offset 0), as in the
append-then-read property. -/
def userQuery (u : String) (lim : Int) : QueryArgs :=
  { user := some u, limit := lim }

/-- Fresh enabled store for the append-then-read example. -/
def c1Store : Store := initStore "2026-10-12" true []

/-- Store with five records T1 < T2 < T3 < T4 < T5, written out of timestamp
order, for the pagination example. -/
def c2Store : Store :=
  initStore "2024-01-02" true
    [("activities_2024-01-01.jsonl",
      [Line.record (mkRecord "2024-01-01T00:00:01Z" "alice" "login"),
       Line.record (mkRecord "2024-01-01T00:00:03Z" "alice" "save"),
       Line.record (mkRecord "2024-01-01T00:00:05Z" "bob" "login"),
       Line.record (mkRecord "2024-01-01T00:00:02Z" "alice" "load"),
       Line.record (mkRecord "2024-01-01T00:00:04Z" "bob" "save")])]

/-- Record with a non-empty timestamp, for the time-boundary counterexample. -/
def c3Record : ActivityRecord := mkRecord "2024-01-01T00:00:01Z" "alice" "login"

/-- Store holding just `c3Record`. -/
def c3Store : Store :=
  initStore "2024-01-01" true [("activities_2024-01-01.jsonl", [Line.record c3Record])]

/-- Query whose `end_time` is given but equal to the empty string. -/
def c3Query : QueryArgs := { end_time := some "" }

/-- Store with three "login" events for "alice" and one "save" event for
"bob", for the stats aggregation example. -/
def c4Store : Store :=
  initStore "2026-10-12" true
    [("activities_2026-10-12.jsonl",
      [Line.record (mkRecord "2026-10-12T00:00:01Z" "alice" "login"),
       Line.record (mkRecord "2026-10-12T00:00:02Z" "alice" "login"),
       Line.record (mkRecord "2026-10-12T00:00:03Z" "alice" "login"),
       Line.record (mkRecord "2026-10-12T00:00:04Z" "bob" "save")])]

/-- A possible graph of `datetime.fromisoformat(...).timestamp()` on the four
timestamps stored in `c4Store` (integer epoch seconds). -/
def c4Parse : String → Option Int := fun s =>
  if s = "2026-10-12T00:00:01+00:00" then some 101 else
  if s = "2026-10-12T00:00:02+00:00" then some 102 else
  if s = "2026-10-12T00:00:03+00:00" then some 103 else
  if s = "2026-10-12T00:00:04+00:00" then some 104 else none

/-- Store constructed on local day 2026-01-01, for the partition-name
counterexample: a later `log` call made on UTC day 2026-01-02 still lands in
the 2026-01-01 file. -/
def c5Store : Store := initStore "2026-01-01" true []

/-- First valid record of the corrupt-line-tolerance example. -/
def c6RecA : ActivityRecord := mkRecord "2024-01-01T00:00:01Z" "alice" "login"

/-- Second valid record of the corrupt-line-tolerance example. -/
def c6RecB : ActivityRecord := mkRecord "2024-01-01T00:00:02Z" "bob" "save"

/-- Store whose single partition interleaves a corrupt line and a blank line
with two valid records. -/
def c6Store : Store :=
  initStore "2024-01-01" true
    [("activities_2024-01-01.jsonl",
      [Line.record c6RecA, Line.corrupt, Line.record c6RecB, Line.blank])]

/-- Record whose timestamp no ISO-8601 parser accepts. -/
def c7Record : ActivityRecord := mkRecord "not-a-timestamp" "alice" "login"

/-- Store holding just `c7Record`. -/
def c7Store : Store :=
  initStore "2024-01-01" true [("activities_2024-01-01.jsonl", [Line.record c7Record])]

/-- Disabled store that already holds one record. -/
def c8Store : Store :=
  initStore "2024-01-01" false
    [("activities_2024-01-01.jsonl",
      [Line.record (mkRecord "2024-01-01T00:00:01Z" "alice" "login")])]

/-- Older of the two records of the negative-limit counterexample. -/
def c9RecOld : ActivityRecord := mkRecord "2024-01-01T00:00:01Z" "alice" "login"

/-- Newer of the two records of the negative-limit counterexample. -/
def c9RecNew : ActivityRecord := mkRecord "2024-01-01T00:00:02Z" "alice" "save"

/-- Store holding exactly `c9RecOld` and `c9RecNew`. -/
def c9Store : Store :=
  initStore "2024-01-01" true
    [("activities_2024-01-01.jsonl", [Line.record c9RecOld, Line.record c9RecNew])]

/-! ## Order lemmas for the Python string comparison -/

theorem chCmp_lt_iff (a b : Char) : chCmp a b = .lt ↔ a.toNat < b.toNat := by
  unfold chCmp
  by_cases hab : a = b
  · subst hab; simp
  · by_cases hlt : a.toNat < b.toNat
    · simp [hab, hlt]
    · simp [hab, hlt]

theorem chCmp_eq_iff (a b : Char) : chCmp a b = .eq ↔ a = b := by
  unfold chCmp
  by_cases hab : a = b
  · simp [hab]
  · by_cases hlt : a.toNat < b.toNat <;> simp [hab, hlt]

theorem chCmp_gt_iff (a b : Char) : chCmp a b = .gt ↔ b.toNat < a.toNat := by
  unfold chCmp
  by_cases hab : a = b
  · subst hab; simp
  · have hn : a.toNat ≠ b.toNat := fun h => hab (Char.ext (UInt32.ext h))
    by_cases hlt : a.toNat < b.toNat
    · simp [hab, hlt]; omega
    · simp [hab, hlt]; omega

theorem charsCmp_self : ∀ as : List Char, charsCmp as as = .eq := by
  intro as
  induction as with
  | nil => rfl
  | cons a as ih =>
    simp [charsCmp, show chCmp a a = .eq from (chCmp_eq_iff a a).mpr rfl, ih]

theorem charsCmp_eq_iff : ∀ as bs : List Char, charsCmp as bs = .eq ↔ as = bs := by
  intro as
  induction as with
  | nil => intro bs; cases bs <;> simp [charsCmp]
  | cons a as ih =>
    intro bs
    cases bs with
    | nil => simp [charsCmp]
    | cons b bs =>
      cases h : chCmp a b with
      | eq =>
        have hab : a = b := (chCmp_eq_iff a b).mp h
        subst hab
        simp [charsCmp, h, ih]
      | lt =>
        have hab : a ≠ b := fun e => by
          rw [e, (chCmp_eq_iff b b).mpr rfl] at h
          exact Ordering.noConfusion h
        simp [charsCmp, h, hab]
      | gt =>
        have hab : a ≠ b := fun e => by
          rw [e, (chCmp_eq_iff b b).mpr rfl] at h
          exact Ordering.noConfusion h
        simp [charsCmp, h, hab]

theorem chCmp_swap (a b : Char) : chCmp b a = (chCmp a b).swap := by
  by_cases hab : a = b
  · subst hab; rw [(chCmp_eq_iff a a).mpr rfl]; rfl
  · have hn : a.toNat ≠ b.toNat := fun hh => hab (Char.ext (UInt32.ext hh))
    by_cases hlt : a.toNat < b.toNat
    · rw [(chCmp_lt_iff a b).mpr hlt, (chCmp_gt_iff b a).mpr hlt]; rfl
    · have hgt : b.toNat < a.toNat := by omega
      rw [(chCmp_gt_iff a b).mpr hgt, (chCmp_lt_iff b a).mpr hgt]; rfl

theorem charsCmp_swap : ∀ as bs : List Char, charsCmp bs as = (charsCmp as bs).swap := by
  intro as
  induction as with
  | nil => intro bs; cases bs <;> rfl
  | cons a as ih =>
    intro bs
    cases bs with
    | nil => rfl
    | cons b bs =>
      cases h : chCmp a b with
      | eq => simp only [charsCmp, chCmp_swap a b, h]; exact ih bs
      | lt => simp only [charsCmp, chCmp_swap a b, h]; rfl
      | gt => simp only [charsCmp, chCmp_swap a b, h]; rfl

theorem charsCmp_lt_trans : ∀ as bs cs : List Char, charsCmp as bs = .lt →
    charsCmp bs cs = .lt → charsCmp as cs = .lt := by
  intro as
  induction as with
  | nil =>
    intro bs cs h1 h2
    cases bs with
    | nil => exact absurd h1 (by simp [charsCmp])
    | cons b bs =>
      cases cs with
      | nil => exact absurd h2 (by simp [charsCmp])
      | cons c cs => simp [charsCmp]
  | cons a as ih =>
    intro bs cs h1 h2
    cases bs with
    | nil => exact absurd h1 (by simp [charsCmp])
    | cons b bs =>
      cases cs with
      | nil => exact absurd h2 (by simp [charsCmp])
      | cons c cs =>
        rw [charsCmp] at h1 h2 ⊢
        cases hab : chCmp a b with
        | lt =>
          cases hbc : chCmp b c with
          | lt =>
            have h3 : a.toNat < c.toNat :=
              Nat.lt_trans ((chCmp_lt_iff a b).mp hab) ((chCmp_lt_iff b c).mp hbc)
            rw [(chCmp_lt_iff a c).mpr h3]
          | eq =>
            have e : b = c := (chCmp_eq_iff b c).mp hbc
            subst e
            rw [hab]
          | gt => rw [hbc] at h2; simp at h2
        | eq =>
          have e : a = b := (chCmp_eq_iff a b).mp hab
          rw [hab] at h1
          subst e
          cases hac : chCmp a c with
          | lt => rfl
          | eq =>
            rw [hac] at h2
            exact ih bs cs h1 h2
          | gt => rw [hac] at h2; simp at h2
        | gt => rw [hab] at h1; simp at h1

theorem pyStrLe_eq_true_iff (a b : String) :
    pyStrLe a b = true ↔ charsCmp b.data a.data ≠ .lt := by
  unfold pyStrLe pyStrLt
  cases h : charsCmp b.data a.data <;> decide

theorem pyStrLt_irrefl (a : String) : pyStrLt a a = false := by
  unfold pyStrLt
  rw [charsCmp_self]
  decide

theorem pyStrLt_to_empty (a : String) : pyStrLt a "" = false := by
  unfold pyStrLt
  cases h : a.data <;> rfl

theorem pyStrLe_total (a b : String) : pyStrLe a b = true ∨ pyStrLe b a = true := by
  by_cases h : charsCmp b.data a.data = .lt
  · right
    rw [pyStrLe_eq_true_iff]
    rw [charsCmp_swap b.data a.data, h]
    decide
  · left
    exact (pyStrLe_eq_true_iff a b).mpr h

theorem pyStrLe_trans (a b c : String) (h1 : pyStrLe a b = true)
    (h2 : pyStrLe b c = true) : pyStrLe a c = true := by
  rw [pyStrLe_eq_true_iff] at h1 h2 ⊢
  intro hca
  cases hbc : charsCmp b.data c.data with
  | lt => exact h1 (charsCmp_lt_trans b.data c.data a.data hbc hca)
  | eq =>
    have e : b.data = c.data := (charsCmp_eq_iff b.data c.data).mp hbc
    rw [← e] at hca
    exact h1 hca
  | gt =>
    apply h2
    rw [charsCmp_swap b.data c.data, hbc]
    rfl

instance : IsTotal ActivityRecord recGe :=
  ⟨fun a b => pyStrLe_total (tsOrEmpty b) (tsOrEmpty a)⟩

instance : IsTrans ActivityRecord recGe :=
  ⟨fun _ _ _ h1 h2 => pyStrLe_trans _ _ _ h2 h1⟩

instance : IsTotal (String × Nat) countGe :=
  ⟨fun p q => Nat.le_total q.2 p.2⟩

instance : IsTrans (String × Nat) countGe :=
  ⟨fun _ _ _ h1 h2 => Nat.le_trans h2 h1⟩

/-! ## Lemmas about the read loop, collection and slicing -/

theorem scanLines_eq (q : QueryArgs) : ∀ ls : List Line,
    scanLines q ls = (ls.filterMap lineRecord).filter (fun r => passesFilters q r)
  | [] => rfl
  | Line.blank :: rest => by
    simp [scanLines, lineRecord, List.filterMap_cons, scanLines_eq q rest]
  | Line.corrupt :: rest => by
    simp [scanLines, lineRecord, List.filterMap_cons, scanLines_eq q rest]
  | Line.record r :: rest => by
    by_cases h : passesFilters q r <;>
      simp [scanLines, lineRecord, List.filterMap_cons, List.filter_cons, h,
        scanLines_eq q rest]

theorem passes_of_mem_scanLines {q : QueryArgs} {ls : List Line} {r : ActivityRecord}
    (h : r ∈ scanLines q ls) : passesFilters q r = true := by
  rw [scanLines_eq] at h
  exact (List.mem_filter.mp h).2

theorem mem_scanLines {q : QueryArgs} {ls : List Line} {r : ActivityRecord}
    (hmem : Line.record r ∈ ls) (hp : passesFilters q r = true) : r ∈ scanLines q ls := by
  rw [scanLines_eq]
  exact List.mem_filter.mpr ⟨List.mem_filterMap.mpr ⟨Line.record r, hmem, rfl⟩, hp⟩

theorem appendToFile_mem (name : String) (l : Line) :
    ∀ files : List (String × List Line),
    ∃ ls, (name, ls) ∈ appendToFile name l files ∧ l ∈ ls
  | [] => ⟨[l], by simp [appendToFile], by simp⟩
  | (n, ls0) :: rest => by
    by_cases h : n = name
    · subst h
      exact ⟨ls0 ++ [l], by simp [appendToFile], by simp⟩
    · obtain ⟨ls, hmem, hl⟩ := appendToFile_mem name l rest
      exact ⟨ls, by simp [appendToFile, h]; exact Or.inr hmem, hl⟩

theorem mem_collectRecords {q : QueryArgs} {s : Store} {n : String} {ls : List Line}
    {r : ActivityRecord} (hf : (n, ls) ∈ s.files) (hr : r ∈ scanLines q ls) :
    r ∈ collectRecords q s := by
  unfold collectRecords
  rw [List.mem_flatMap]
  exact ⟨(n, ls), (List.perm_insertionSort fileGe s.files).mem_iff.mpr hf, hr⟩

theorem passes_of_mem_collect {q : QueryArgs} {s : Store} {r : ActivityRecord}
    (h : r ∈ collectRecords q s) : passesFilters q r = true := by
  unfold collectRecords at h
  rw [List.mem_flatMap] at h
  obtain ⟨f, _, hr⟩ := h
  exact passes_of_mem_scanLines hr

theorem pySlice_length_le {α} (a b : Int) (xs : List α) (hab : a ≤ b) :
    (pySlice a b xs).length ≤ (b - a).toNat := by
  simp only [pySlice, List.length_drop, List.length_take]
  split_ifs <;> omega

theorem pySlice_all {α} (b : Int) (xs : List α) (h : xs.length ≤ b.toNat) :
    pySlice 0 b xs = xs := by
  by_cases hb : b < 0
  · have hx : xs = [] := List.length_eq_zero.mp (by omega)
    subst hx
    simp [pySlice]
  · have hmin : min b.toNat xs.length = xs.length := by omega
    simp [pySlice, hb, hmin]

theorem pySlice_same {α} (a : Int) (xs : List α) : pySlice a a xs = [] := by
  apply List.length_eq_zero.mp
  simp only [pySlice, List.length_drop, List.length_take]
  split_ifs <;> omega

theorem get_activities_sorted (s : Store) (q : QueryArgs) :
    List.Sorted recGe (get_activities s q) := by
  have hs : List.Sorted recGe (List.insertionSort recGe (collectRecords q s)) :=
    List.sorted_insertionSort recGe _
  unfold get_activities pySlice
  exact hs.sublist ((List.drop_sublist _ _).trans (List.take_sublist _ _))

theorem mem_of_mem_get_activities {s : Store} {q : QueryArgs} {r : ActivityRecord}
    (h : r ∈ get_activities s q) :
    r ∈ collectRecords q s ∧ passesFilters q r = true := by
  unfold get_activities pySlice at h
  have h1 : r ∈ List.insertionSort recGe (collectRecords q s) :=
    ((List.drop_sublist _ _).trans (List.take_sublist _ _)).mem h
  have h2 : r ∈ collectRecords q s := (List.perm_insertionSort recGe _).mem_iff.mp h1
  exact ⟨h2, passes_of_mem_collect h2⟩

theorem get_activities_length_le (s : Store) (q : QueryArgs) (h : 0 ≤ q.limit) :
    (get_activities s q).length ≤ q.limit.toNat := by
  unfold get_activities
  have hb := pySlice_length_le q.offset (q.offset + q.limit)
    (List.insertionSort recGe (collectRecords q s)) (by omega)
  have he : (q.offset + q.limit - q.offset).toNat = q.limit.toNat := by omega
  rw [he] at hb
  exact hb

theorem mem_get_activities_of {s : Store} {q : QueryArgs} {r : ActivityRecord}
    (hc : r ∈ collectRecords q s) (hoff : q.offset = 0)
    (hlim : (collectRecords q s).length ≤ q.limit.toNat) :
    r ∈ get_activities s q := by
  unfold get_activities
  rw [hoff, Int.zero_add]
  have hlen : (List.insertionSort recGe (collectRecords q s)).length ≤ q.limit.toNat := by
    rw [List.length_insertionSort]
    exact hlim
  rw [pySlice_all _ _ hlen]
  exact (List.perm_insertionSort recGe _).mem_iff.mpr hc

theorem scanLines_congr {q1 q2 : QueryArgs}
    (h : ∀ r, passesFilters q1 r = passesFilters q2 r) :
    ∀ ls : List Line, scanLines q1 ls = scanLines q2 ls
  | [] => rfl
  | Line.blank :: rest => scanLines_congr h rest
  | Line.corrupt :: rest => scanLines_congr h rest
  | Line.record r :: rest => by
    rw [scanLines, scanLines, h r, scanLines_congr h rest]

theorem get_activities_congr {s : Store} {q1 q2 : QueryArgs}
    (h : ∀ r, passesFilters q1 r = passesFilters q2 r)
    (hl : q1.limit = q2.limit) (ho : q1.offset = q2.offset) :
    get_activities s q1 = get_activities s q2 := by
  unfold get_activities collectRecords
  rw [hl, ho, show (fun f : String × List Line => scanLines q1 f.2) =
    (fun f => scanLines q2 f.2) from funext (fun f => scanLines_congr h f.2)]

/-! ## Lemmas about `Counter` (`countBy`) -/

theorem countBump_lookup (x y : String) :
    ∀ acc : List (String × Nat),
    (countBump x acc).lookup y =
      if y = x then some (((acc.lookup y).getD 0) + 1) else acc.lookup y
  | [] => by
    by_cases h : y = x
    · subst h
      simp [countBump, List.lookup]
    · have hb : (y == x) = false := beq_eq_false_iff_ne.mpr h
      simp [countBump, List.lookup, hb, h]
  | (k, c) :: rest => by
    by_cases hkx : k = x
    · subst hkx
      by_cases hyk : y = k
      · subst hyk
        simp [countBump, List.lookup]
      · have hb : (y == k) = false := beq_eq_false_iff_ne.mpr hyk
        simp [countBump, List.lookup, hb, hyk]
    · by_cases hyk : y = k
      · subst hyk
        simp [countBump, List.lookup, hkx]
      · have hbyk : (y == k) = false := beq_eq_false_iff_ne.mpr hyk
        simp [countBump, List.lookup, hkx, hbyk, countBump_lookup x y rest]

theorem countBump_keys (x : String) : ∀ acc : List (String × Nat),
    (countBump x acc).map Prod.fst =
      if x ∈ acc.map Prod.fst then acc.map Prod.fst else acc.map Prod.fst ++ [x]
  | [] => by simp [countBump]
  | (k, c) :: rest => by
    by_cases h : k = x
    · subst h
      simp [countBump]
    · have hxk : ¬ x = k := fun e => h e.symm
      by_cases hx : x ∈ rest.map Prod.fst <;>
        simp [countBump, h, hxk, hx, countBump_keys x rest]

theorem countBump_nodupKeys (x : String) (acc : List (String × Nat))
    (h : (acc.map Prod.fst).Nodup) : ((countBump x acc).map Prod.fst).Nodup := by
  rw [countBump_keys]
  by_cases hx : x ∈ acc.map Prod.fst
  · simp [hx, h]
  · simp [hx, List.nodup_append, h]

theorem countFold_lookupN (k : String) : ∀ (xs : List String) (acc : List (String × Nat)),
    (((xs.foldl (fun a x => countBump x a) acc).lookup k).getD 0) =
      ((acc.lookup k).getD 0) + xs.count k
  | [], acc => by simp
  | x :: xs, acc => by
    rw [List.foldl_cons, countFold_lookupN k xs (countBump x acc), countBump_lookup x k acc]
    by_cases h : k = x
    · subst h
      simp [List.count_cons]
      omega
    · have hb : (k == x) = false := beq_eq_false_iff_ne.mpr h
      simp [h, List.count_cons, hb]

theorem countFold_keys_mem (k : String) : ∀ (xs : List String) (acc : List (String × Nat)),
    (k ∈ (xs.foldl (fun a x => countBump x a) acc).map Prod.fst) ↔
      k ∈ acc.map Prod.fst ∨ k ∈ xs
  | [], acc => by simp
  | x :: xs, acc => by
    rw [List.foldl_cons, countFold_keys_mem k xs (countBump x acc), countBump_keys x acc]
    by_cases hx : x ∈ acc.map Prod.fst
    · by_cases hk : k = x <;> simp [hx, hk]
    · by_cases hk : k = x <;> simp [hx, hk]

theorem countFold_nodupKeys : ∀ (xs : List String) (acc : List (String × Nat)),
    (acc.map Prod.fst).Nodup →
    ((xs.foldl (fun a x => countBump x a) acc).map Prod.fst).Nodup
  | [], _ => fun h => h
  | x :: xs, acc => fun h =>
    countFold_nodupKeys xs (countBump x acc) (countBump_nodupKeys x acc h)

theorem lookup_eq_of_mem_nodup {β : Type} : ∀ (l : List (String × β)) (p : String × β),
    (l.map Prod.fst).Nodup → p ∈ l → l.lookup p.1 = some p.2
  | [], p, _, hp => absurd hp (List.not_mem_nil p)
  | (k, v) :: rest, p, hnd, hp => by
    rcases List.mem_cons.mp hp with he | hm
    · subst he
      simp [List.lookup]
    · rw [List.map_cons] at hnd
      have hnd' := List.nodup_cons.mp hnd
      have hk : ¬ p.1 = k := by
        intro e
        have h1 : p.1 ∈ rest.map Prod.fst := List.mem_map_of_mem Prod.fst hm
        rw [e] at h1
        exact hnd'.1 h1
      have hb : (p.1 == k) = false := beq_eq_false_iff_ne.mpr hk
      rw [List.lookup]
      simp only [hb]
      exact lookup_eq_of_mem_nodup rest p hnd'.2 hm

theorem mem_of_lookup_eq_some {β : Type} : ∀ (l : List (String × β)) (k : String) (v : β),
    l.lookup k = some v → (k, v) ∈ l
  | [], _, _, h => by simp [List.lookup] at h
  | (k0, v0) :: rest, k, v, h => by
    by_cases hk : k = k0
    · subst hk
      simp only [List.lookup, beq_self_eq_true] at h
      have hv : v0 = v := Option.some.inj h
      rw [← hv]
      exact List.mem_cons_self _ _
    · have hb : (k == k0) = false := beq_eq_false_iff_ne.mpr hk
      rw [List.lookup] at h
      simp only [hb] at h
      exact List.mem_cons_of_mem _ (mem_of_lookup_eq_some rest k v h)

theorem lookup_isSome_of_mem_keys {β : Type} : ∀ (l : List (String × β)) (k : String),
    k ∈ l.map Prod.fst → ∃ v, l.lookup k = some v
  | [], k, h => absurd h (by simp)
  | (k0, v0) :: rest, k, h => by
    by_cases hk : k = k0
    · subst hk
      exact ⟨v0, by simp [List.lookup]⟩
    · have hrest : k ∈ rest.map Prod.fst := by
        rw [List.map_cons] at h
        rcases List.mem_cons.mp h with he | hm
        · exact absurd he hk
        · exact hm
      obtain ⟨v, hv⟩ := lookup_isSome_of_mem_keys rest k hrest
      refine ⟨v, ?_⟩
      have hb : (k == k0) = false := beq_eq_false_iff_ne.mpr hk
      rw [List.lookup]
      simp only [hb]
      exact hv

theorem countBy_lookup_of_mem {xs : List String} {x : String} (h : x ∈ xs) :
    (countBy xs).lookup x = some (xs.count x) := by
  have h1 := countFold_lookupN x xs []
  have h2 : x ∈ (countBy xs).map Prod.fst :=
    (countFold_keys_mem x xs []).mpr (Or.inr h)
  obtain ⟨v, hv⟩ := lookup_isSome_of_mem_keys _ x h2
  unfold countBy at hv h1 ⊢
  rw [hv] at h1 ⊢
  simp [List.lookup] at h1
  rw [h1]

theorem countBy_nodupKeys (xs : List String) : ((countBy xs).map Prod.fst).Nodup :=
  countFold_nodupKeys xs [] (by simp)

theorem countBy_sound {xs : List String} {p : String × Nat} (h : p ∈ countBy xs) :
    p.1 ∈ xs ∧ p.2 = xs.count p.1 := by
  have hl : (countBy xs).lookup p.1 = some p.2 :=
    lookup_eq_of_mem_nodup _ p (countBy_nodupKeys xs) h
  have hmem : p.1 ∈ xs := by
    have := (countFold_keys_mem p.1 xs []).mp (List.mem_map_of_mem Prod.fst h)
    simpa using this
  have hc := countBy_lookup_of_mem hmem
  rw [hl] at hc
  exact ⟨hmem, Option.some.inj hc⟩

theorem countBy_complete {xs : List String} {x : String} (h : x ∈ xs) :
    (x, xs.count x) ∈ countBy xs :=
  mem_of_lookup_eq_some _ _ _ (countBy_lookup_of_mem h)

theorem lookup_eq_none_of_not_mem {β : Type} : ∀ (l : List (String × β)) (k : String),
    k ∉ l.map Prod.fst → l.lookup k = none
  | [], _, _ => rfl
  | (k0, v0) :: rest, k, h => by
    rw [List.map_cons, List.mem_cons] at h
    push_neg at h
    have hb : (k == k0) = false := beq_eq_false_iff_ne.mpr h.1
    rw [List.lookup]
    simp only [hb]
    exact lookup_eq_none_of_not_mem rest k h.2

/-! ## Lemmas about `log` and single-filter queries -/

theorem log_enabled {s : Store} (hen : s.enabled = true) (u ty : String)
    (dets : Option (List (String × String))) (src now : String) :
    log s u ty dets src now =
      (some (loggedRecord u ty dets src now),
       { s with files := appendToFile s.currentLogFile
                  (Line.record (loggedRecord u ty dets src now)) s.files }) := by
  unfold log
  rw [hen]
  rfl

theorem passes_userQuery (u : String) (lim : Int) (r : ActivityRecord)
    (hu : r.user = some u) : passesFilters (userQuery u lim) r = true := by
  simp [passesFilters, passUser, passType, passStart, passEnd, userQuery, truthy, hu]

/-! ## Lemmas about the stats time-window traversal -/

theorem selectRecent_all (parseTs : String → Option Int) (cutoff : Int) :
    ∀ l : List ActivityRecord,
    (∀ a ∈ l, ∃ ts t, a.timestamp = some ts ∧ parseTs (replaceZ ts) = some t ∧ cutoff < t) →
    selectRecent parseTs cutoff l = some l
  | [], _ => rfl
  | a :: rest, h => by
    obtain ⟨ts, t, hts, hp, hc⟩ := h a (List.mem_cons_self a rest)
    have ih := selectRecent_all parseTs cutoff rest
      (fun b hb => h b (List.mem_cons_of_mem a hb))
    simp [selectRecent, hts, hp, ih, hc]

theorem selectRecent_none (parseTs : String → Option Int) (cutoff : Int) :
    ∀ l : List ActivityRecord, ∀ a ∈ l, ∀ ts, a.timestamp = some ts →
    parseTs (replaceZ ts) = none → selectRecent parseTs cutoff l = none
  | [], a, ha, _, _, _ => absurd ha (List.not_mem_nil a)
  | b :: rest, a, ha, ts, hts, hp => by
    rcases List.mem_cons.mp ha with he | hm
    · subst he
      simp [selectRecent, hts, hp]
    · have ih := selectRecent_none parseTs cutoff rest a hm ts hts hp
      cases hb : b.timestamp with
      | none => simp [selectRecent, hb]
      | some ts2 =>
        cases hp2 : parseTs (replaceZ ts2) with
        | none => simp [selectRecent, hb, hp2]
        | some t2 => simp [selectRecent, hb, hp2, ih]

/-! ## Claims -/

/-- Claim C1: on an enabled store, `log(user, activity_type, details, source)`
returns a record whose `description` is the canned description from the
enumerated `ACTIVITY_TYPES` table when the tag is one of the nine well-known
ones, and the raw tag itself otherwise; the record returned is the very record
appended to the current log file, and a subsequent query filtered on that
record's user (offset 0, with a limit at least the number of surviving
records) returns it among its results. -/
theorem claim_C1 (s : Store) (u ty : String) (dets : Option (List (String × String)))
    (src now : String) (lim : Int) (hen : s.enabled = true)
    (hlim : (collectRecords (userQuery u lim) (log s u ty dets src now).2).length ≤
      lim.toNat) :
    ∃ r, (log s u ty dets src now).1 = some r ∧
      r = loggedRecord u ty dets src now ∧
      (∀ d, (ty, d) ∈ ACTIVITY_TYPES → r.description = some d) ∧
      (ty ∉ ACTIVITY_TYPES.map Prod.fst → r.description = some ty) ∧
      (log s u ty dets src now).2.files =
        appendToFile s.currentLogFile (Line.record r) s.files ∧
      r ∈ get_activities (log s u ty dets src now).2 (userQuery u lim) := by
  refine ⟨loggedRecord u ty dets src now, ?_, rfl, ?_, ?_, ?_, ?_⟩
  · rw [log_enabled hen]
  · intro d hd
    have hl : ACTIVITY_TYPES.lookup ty = some d :=
      lookup_eq_of_mem_nodup ACTIVITY_TYPES (ty, d) (by decide) hd
    simp [loggedRecord, hl]
  · intro hnm
    have hl : ACTIVITY_TYPES.lookup ty = none := lookup_eq_none_of_not_mem _ ty hnm
    simp [loggedRecord, hl]
  · rw [log_enabled hen]
  · rw [log_enabled hen]
    obtain ⟨ls, hmem, hl⟩ := appendToFile_mem s.currentLogFile
      (Line.record (loggedRecord u ty dets src now)) s.files
    apply mem_get_activities_of (q := userQuery u lim)
    · exact mem_collectRecords hmem (mem_scanLines hl (passes_userQuery u lim _ rfl))
    · rfl
    · rw [log_enabled hen] at hlim
      exact hlim

/-- Witness for C1: a fresh enabled store; logging `alice`/`login`/`web` gives
`description = "User logged in"` and the record is found by
`query(user="alice")`; logging the unknown tag `custom_event` gives
`description = "custom_event"`. -/
theorem claim_C1_witness :
    c1Store.enabled = true ∧
    (collectRecords (userQuery "alice" 100)
      (log c1Store "alice" "login" none "web" "2026-10-12T10:00:00").2).length ≤
      (100 : Int).toNat ∧
    (∃ r, (log c1Store "alice" "login" none "web" "2026-10-12T10:00:00").1 = some r ∧
      r = loggedRecord "alice" "login" none "web" "2026-10-12T10:00:00" ∧
      (∀ d, ("login", d) ∈ ACTIVITY_TYPES → r.description = some d) ∧
      ("login" ∉ ACTIVITY_TYPES.map Prod.fst → r.description = some "login") ∧
      (log c1Store "alice" "login" none "web" "2026-10-12T10:00:00").2.files =
        appendToFile c1Store.currentLogFile (Line.record r) c1Store.files ∧
      r ∈ get_activities (log c1Store "alice" "login" none "web" "2026-10-12T10:00:00").2
        (userQuery "alice" 100)) ∧
    ("login", "User logged in") ∈ ACTIVITY_TYPES ∧
    (collectRecords (userQuery "carol" 100)
      (log c1Store "carol" "custom_event" none "web" "2026-10-12T10:00:00").2).length ≤
      (100 : Int).toNat ∧
    (∃ r, (log c1Store "carol" "custom_event" none "web" "2026-10-12T10:00:00").1 = some r ∧
      r = loggedRecord "carol" "custom_event" none "web" "2026-10-12T10:00:00" ∧
      (∀ d, ("custom_event", d) ∈ ACTIVITY_TYPES → r.description = some d) ∧
      ("custom_event" ∉ ACTIVITY_TYPES.map Prod.fst →
        r.description = some "custom_event") ∧
      (log c1Store "carol" "custom_event" none "web" "2026-10-12T10:00:00").2.files =
        appendToFile c1Store.currentLogFile (Line.record r) c1Store.files ∧
      r ∈ get_activities
        (log c1Store "carol" "custom_event" none "web" "2026-10-12T10:00:00").2
        (userQuery "carol" 100)) ∧
    "custom_event" ∉ ACTIVITY_TYPES.map Prod.fst :=
  ⟨rfl, by decide,
   claim_C1 c1Store "alice" "login" none "web" "2026-10-12T10:00:00" 100 rfl (by decide),
   by decide, by decide,
   claim_C1 c1Store "carol" "custom_event" none "web" "2026-10-12T10:00:00" 100 rfl
     (by decide),
   by decide⟩

/-- Claim C2: every returned record was collected from the store and survives
the filters; the result is sorted newest-first on the timestamp string (a
missing timestamp sorting as `""`, which is what `recGe` compares); with a
non-negative limit at most `limit` records are returned; and on five records
timestamped T1 < T2 < T3 < T4 < T5 (stored out of order),
`query(limit=2, offset=1)` returns exactly the records timestamped T4 then
T3. -/
theorem claim_C2 :
    (∀ (s : Store) (q : QueryArgs),
      (∀ r ∈ get_activities s q, r ∈ collectRecords q s ∧ passesFilters q r = true) ∧
      (∀ (n : String) (ls : List Line) (r : ActivityRecord), (n, ls) ∈ s.files →
        Line.record r ∈ ls → passesFilters q r = true → r ∈ collectRecords q s) ∧
      List.Sorted recGe (get_activities s q) ∧
      (0 ≤ q.limit → (get_activities s q).length ≤ q.limit.toNat)) ∧
    get_activities c2Store { limit := 2, offset := 1 } =
      [mkRecord "2024-01-01T00:00:04Z" "bob" "save",
       mkRecord "2024-01-01T00:00:03Z" "alice" "save"] := by
  constructor
  · intro s q
    refine ⟨fun r hr => mem_of_mem_get_activities hr, ?_,
      get_activities_sorted s q, fun h => get_activities_length_le s q h⟩
    intro n ls r hf hr hp
    exact mem_collectRecords hf (mem_scanLines hr hp)
  · decide

/-- Witness for C2: the bound hypotheses hold at the pagination example
(`limit = 2` is non-negative, and the two returned records are among the
collected survivors). -/
theorem claim_C2_witness :
    0 ≤ (({ limit := 2, offset := 1 } : QueryArgs)).limit ∧
    (get_activities c2Store { limit := 2, offset := 1 }).length ≤
      (({ limit := 2, offset := 1 } : QueryArgs)).limit.toNat :=
  ⟨by decide,
   (claim_C2.1 c2Store { limit := 2, offset := 1 }).2.2.2 (by decide)⟩

/-- Counterexample to claim C3 as stated: `end_time` may be *given* and equal
to `""`; the code treats a falsy `end_time` as no filter at all, so a record
whose timestamp is strictly greater than the given `end_time` is still
returned rather than excluded. -/
theorem claim_C3_counterexample :
    c3Query.end_time = some "" ∧
    pyStrLt "" (tsOrEmpty c3Record) = true ∧
    get_activities c3Store c3Query = [c3Record] :=
  ⟨rfl, by decide, by decide⟩

/-- Claim C3 (amended): for a given `start_time`, records with timestamp
strictly below it are excluded and a record with timestamp equal to it passes
the start check; for a given **non-empty** `end_time`, records with timestamp
strictly above it are excluded and a record with timestamp equal to it passes
the end check (an empty `end_time` string is falsy in Python and disables the
filter). -/
theorem claim_C3_amended (r : ActivityRecord) (q : QueryArgs) :
    (∀ st, q.start_time = some st →
      (pyStrLt (tsOrEmpty r) st = true → passesFilters q r = false) ∧
      (tsOrEmpty r = st → passStart q r = true)) ∧
    (∀ e, q.end_time = some e → e ≠ "" →
      (pyStrLt e (tsOrEmpty r) = true → passesFilters q r = false) ∧
      (tsOrEmpty r = e → passEnd q r = true)) := by
  constructor
  · intro st hst
    constructor
    · intro hlt
      by_cases hst0 : st = ""
      · subst hst0
        rw [pyStrLt_to_empty] at hlt
        exact absurd hlt (by decide)
      · have ht : truthy (some st) = true := by simp [truthy, hst0]
        have hps : passStart q r = false := by
          unfold passStart
          rw [hst]
          simp [ht, hlt]
        simp [passesFilters, hps]
    · intro heq
      unfold passStart
      rw [hst]
      simp [heq, pyStrLt_irrefl]
  · intro e hend hne
    have ht : truthy (some e) = true := by simp [truthy, hne]
    constructor
    · intro hlt
      have hpe : passEnd q r = false := by
        unfold passEnd
        rw [hend]
        simp [ht, hlt]
      simp [passesFilters, hpe]
    · intro heq
      unfold passEnd
      rw [hend]
      simp [← heq, pyStrLt_irrefl]

/-- Witness for C3 (amended): with both bounds set to the record's own
timestamp (non-empty), the record passes both time checks. -/
theorem claim_C3_witness :
    (({ start_time := some "2024-01-01T00:00:01Z",
        end_time := some "2024-01-01T00:00:01Z" } : QueryArgs).start_time =
      some "2024-01-01T00:00:01Z") ∧
    tsOrEmpty c3Record = "2024-01-01T00:00:01Z" ∧
    passStart { start_time := some "2024-01-01T00:00:01Z",
                end_time := some "2024-01-01T00:00:01Z" } c3Record = true ∧
    ("2024-01-01T00:00:01Z" ≠ "") ∧
    passEnd { start_time := some "2024-01-01T00:00:01Z",
              end_time := some "2024-01-01T00:00:01Z" } c3Record = true :=
  ⟨rfl, by decide,
   ((claim_C3_amended c3Record
      { start_time := some "2024-01-01T00:00:01Z",
        end_time := some "2024-01-01T00:00:01Z" }).1
      "2024-01-01T00:00:01Z" rfl).2 (by decide),
   by decide,
   ((claim_C3_amended c3Record
      { start_time := some "2024-01-01T00:00:01Z",
        end_time := some "2024-01-01T00:00:01Z" }).2
      "2024-01-01T00:00:01Z" rfl (by decide)).2 (by decide)⟩

/-- Claim C4: when every record fetched by the internal 10000-record query has
a parsable timestamp strictly inside the trailing `days`-day window and carries
its `user` and `activity` keys, `stats` succeeds and reports the total count,
the number of distinct users, a map giving each observed activity tag its
occurrence count, a map of at most 10 most-frequent users with their counts,
and `period_days = days`; in particular three "login" events for "alice" and
one "save" event for "bob" yield `total_activities = 4`, `unique_users = 2`,
`activity_types = {login: 3, save: 1}` and `top_users = {alice: 3, bob: 1}`. -/
theorem claim_C4 :
    (∀ (parseTs : String → Option Int) (nowEpoch days : Int) (s : Store)
       (us acts : List String),
      (∀ a ∈ get_activities s statsQuery, ∃ ts t, a.timestamp = some ts ∧
        parseTs (replaceZ ts) = some t ∧ nowEpoch - days * (24 * 60 * 60) < t) →
      fieldAll (fun a => a.user) (get_activities s statsQuery) = some us →
      fieldAll (fun a => a.activity) (get_activities s statsQuery) = some acts →
      ∃ st, get_activity_stats parseTs nowEpoch s days = some st ∧
        st.total_activities = (get_activities s statsQuery).length ∧
        st.unique_users = us.dedup.length ∧
        (∀ t ∈ acts, st.activity_types.lookup t = some (acts.count t)) ∧
        (∀ p ∈ st.activity_types, p.1 ∈ acts ∧ p.2 = acts.count p.1) ∧
        st.top_users.length ≤ 10 ∧
        (∀ p ∈ st.top_users, p.1 ∈ us ∧ p.2 = us.count p.1) ∧
        (∀ u ∈ us, u ∉ st.top_users.map Prod.fst →
          ∀ p ∈ st.top_users, us.count u ≤ p.2) ∧
        st.period_days = days) ∧
    get_activity_stats c4Parse 200 c4Store 7 =
      some { total_activities := 4, unique_users := 2,
             activity_types := [("save", 1), ("login", 3)],
             top_users := [("alice", 3), ("bob", 1)],
             period_days := 7 } := by
  constructor
  · intro parseTs nowEpoch days s us acts hwf hus hac
    have h1 : selectRecent parseTs (nowEpoch - days * 86400)
        (get_activities s statsQuery) = some (get_activities s statsQuery) :=
      selectRecent_all _ _ _ (fun a ha => hwf a ha)
    have hstats : get_activity_stats parseTs nowEpoch s days =
        some { total_activities := (get_activities s statsQuery).length,
               unique_users := us.dedup.length,
               activity_types := countBy acts,
               top_users := mostCommon 10 us,
               period_days := days } := by
      simp [get_activity_stats, h1, hus, hac]
    refine ⟨_, hstats, rfl, rfl, ?_, ?_, ?_, ?_, ?_, rfl⟩
    · intro t ht
      exact countBy_lookup_of_mem ht
    · intro p hp
      exact countBy_sound hp
    · simp [mostCommon]
    · intro p hp
      have hp1 : p ∈ List.insertionSort countGe (countBy us) :=
        (List.take_sublist 10 _).mem hp
      exact countBy_sound ((List.perm_insertionSort countGe _).mem_iff.mp hp1)
    · intro u hu hnot p hp
      have hcb : (u, us.count u) ∈ countBy us := countBy_complete hu
      have hmemL : (u, us.count u) ∈ List.insertionSort countGe (countBy us) :=
        (List.perm_insertionSort countGe _).mem_iff.mpr hcb
      have hpair : (List.insertionSort countGe (countBy us)).Pairwise countGe :=
        List.sorted_insertionSort countGe _
      have hsplit : (List.insertionSort countGe (countBy us)).take 10 ++
          (List.insertionSort countGe (countBy us)).drop 10 =
          List.insertionSort countGe (countBy us) := List.take_append_drop 10 _
      have hpair2 : ((List.insertionSort countGe (countBy us)).take 10 ++
          (List.insertionSort countGe (countBy us)).drop 10).Pairwise countGe := by
        rw [hsplit]
        exact hpair
      have hdrop : (u, us.count u) ∈ (List.insertionSort countGe (countBy us)).drop 10 := by
        rcases List.mem_append.mp (by rw [hsplit]; exact hmemL) with hin | hin
        · exact absurd (List.mem_map_of_mem Prod.fst hin) hnot
        · exact hin
      exact (List.pairwise_append.mp hpair2).2.2 p hp (u, us.count u) hdrop
  · decide

/-- Witness for C4: the three-logins-for-alice, one-save-for-bob store, with a
parse function giving the four timestamps epoch seconds 101..104 inside the
7-day window ending at epoch 200. -/
theorem claim_C4_witness :
    (∀ a ∈ get_activities c4Store statsQuery, ∃ ts t, a.timestamp = some ts ∧
      c4Parse (replaceZ ts) = some t ∧ (200 : Int) - 7 * (24 * 60 * 60) < t) ∧
    fieldAll (fun a => a.user) (get_activities c4Store statsQuery) =
      some ["bob", "alice", "alice", "alice"] ∧
    fieldAll (fun a => a.activity) (get_activities c4Store statsQuery) =
      some ["save", "login", "login", "login"] ∧
    (∃ st, get_activity_stats c4Parse 200 c4Store 7 = some st ∧
      st.total_activities = (get_activities c4Store statsQuery).length ∧
      st.unique_users = (["bob", "alice", "alice", "alice"] : List String).dedup.length ∧
      (∀ t ∈ (["save", "login", "login", "login"] : List String),
        st.activity_types.lookup t =
          some ((["save", "login", "login", "login"] : List String).count t)) ∧
      (∀ p ∈ st.activity_types, p.1 ∈ (["save", "login", "login", "login"] : List String) ∧
        p.2 = (["save", "login", "login", "login"] : List String).count p.1) ∧
      st.top_users.length ≤ 10 ∧
      (∀ p ∈ st.top_users, p.1 ∈ (["bob", "alice", "alice", "alice"] : List String) ∧
        p.2 = (["bob", "alice", "alice", "alice"] : List String).count p.1) ∧
      (∀ u ∈ (["bob", "alice", "alice", "alice"] : List String),
        u ∉ st.top_users.map Prod.fst →
        ∀ p ∈ st.top_users, (["bob", "alice", "alice", "alice"] : List String).count u ≤ p.2) ∧
      st.period_days = 7) := by
  have hwf : ∀ a ∈ get_activities c4Store statsQuery, ∃ ts t, a.timestamp = some ts ∧
      c4Parse (replaceZ ts) = some t ∧ (200 : Int) - 7 * (24 * 60 * 60) < t := by
    intro a ha
    have he : get_activities c4Store statsQuery =
        [mkRecord "2026-10-12T00:00:04Z" "bob" "save",
         mkRecord "2026-10-12T00:00:03Z" "alice" "login",
         mkRecord "2026-10-12T00:00:02Z" "alice" "login",
         mkRecord "2026-10-12T00:00:01Z" "alice" "login"] := by decide
    rw [he] at ha
    simp only [List.mem_cons, List.not_mem_nil, or_false] at ha
    rcases ha with rfl | rfl | rfl | rfl
    · exact ⟨"2026-10-12T00:00:04Z", 104, rfl, by decide, by decide⟩
    · exact ⟨"2026-10-12T00:00:03Z", 103, rfl, by decide, by decide⟩
    · exact ⟨"2026-10-12T00:00:02Z", 102, rfl, by decide, by decide⟩
    · exact ⟨"2026-10-12T00:00:01Z", 101, rfl, by decide, by decide⟩
  exact ⟨hwf, by decide, by decide,
    claim_C4.1 c4Parse 200 7 c4Store ["bob", "alice", "alice", "alice"]
      ["save", "login", "login", "login"] hwf (by decide) (by decide)⟩

/-- Counterexample to claim C5 as stated: the partition file name is fixed in
`__init__` from the *local* day at construction, not derived from the UTC day
at the time of the `log` call.  A store built on local day 2026-01-01 that
logs a record at UTC instant 2026-01-02T00:00:00Z appends to
`activities_2026-01-01.jsonl`, not to the file named from the call's UTC
calendar day. -/
theorem claim_C5_counterexample :
    (log c5Store "alice" "login" none "web" "2026-01-02T00:00:00").1 =
      some (loggedRecord "alice" "login" none "web" "2026-01-02T00:00:00") ∧
    (loggedRecord "alice" "login" none "web" "2026-01-02T00:00:00").timestamp =
      some "2026-01-02T00:00:00Z" ∧
    (log c5Store "alice" "login" none "web" "2026-01-02T00:00:00").2.files.map Prod.fst =
      ["activities_2026-01-01.jsonl"] ∧
    "activities_2026-01-01.jsonl" ≠ "activities_" ++ "2026-01-02" ++ ".jsonl" :=
  ⟨by decide, rfl, by decide, by decide⟩

/-- Claim C5 (amended): on an enabled store, each `log` call appends the
record as one line to the partition file whose name
`activities_<D>.jsonl` is derived from the *local calendar day `D` at store
initialization* (`self.current_log_file`, fixed for the store's lifetime, not
recomputed from the UTC day of the call), the file being created in the
directory listing if absent at that time. -/
theorem claim_C5_amended (day : String) (files : List (String × List Line))
    (u ty : String) (dets : Option (List (String × String))) (src now : String) :
    ∃ r, log (initStore day true files) u ty dets src now =
      (some r, { initStore day true files with
                   files := appendToFile ("activities_" ++ day ++ ".jsonl")
                     (Line.record r) files }) ∧
      (∃ ls, ("activities_" ++ day ++ ".jsonl", ls) ∈
        (log (initStore day true files) u ty dets src now).2.files ∧
        Line.record r ∈ ls) := by
  refine ⟨loggedRecord u ty dets src now, log_enabled rfl u ty dets src now, ?_⟩
  obtain ⟨ls, h1, h2⟩ := appendToFile_mem ("activities_" ++ day ++ ".jsonl")
    (Line.record (loggedRecord u ty dets src now)) files
  rw [log_enabled rfl u ty dets src now]
  exact ⟨ls, h1, h2⟩

/-- Claim C6: for every partition content and every query, the scan keeps
exactly the records of the lines that parsed, filtered — blank lines and
lines that fail to parse as JSON are skipped with no error raised; in
particular a partition with one invalid-JSON line and one blank line
interleaved among two valid records yields exactly the two valid records. -/
theorem claim_C6 :
    (∀ (q : QueryArgs) (ls : List Line),
      scanLines q ls = (ls.filterMap lineRecord).filter (fun r => passesFilters q r)) ∧
    get_activities c6Store {} = [c6RecB, c6RecA] :=
  ⟨scanLines_eq, by decide⟩

/-- Claim C7: if any record fetched by the internal 10000-record query of
`stats` carries a timestamp that the ISO-8601 parser rejects, the whole stats
computation fails (returns nothing — no partial result, no skipping), even
though `query` itself returned that record without error. -/
theorem claim_C7 (parseTs : String → Option Int) (nowEpoch days : Int) (s : Store)
    (a : ActivityRecord) (ts : String)
    (ha : a ∈ get_activities s statsQuery) (hts : a.timestamp = some ts)
    (hbad : parseTs (replaceZ ts) = none) :
    get_activity_stats parseTs nowEpoch s days = none := by
  have h1 : selectRecent parseTs (nowEpoch - days * 86400)
      (get_activities s statsQuery) = none :=
    selectRecent_none parseTs (nowEpoch - days * 86400)
      (get_activities s statsQuery) a ha ts hts hbad
  simp [get_activity_stats, h1]

/-- Witness for C7: a store holding one record with timestamp
`"not-a-timestamp"` and a parser that rejects it; `query` returns the record
but `stats` fails. -/
theorem claim_C7_witness :
    c7Record ∈ get_activities c7Store statsQuery ∧
    c7Record.timestamp = some "not-a-timestamp" ∧
    (fun _ : String => (none : Option Int)) (replaceZ "not-a-timestamp") = none ∧
    get_activity_stats (fun _ => none) 200 c7Store 7 = none :=
  ⟨by decide, rfl, rfl,
   claim_C7 (fun _ => none) 200 7 c7Store c7Record "not-a-timestamp" (by decide) rfl rfl⟩

/-- Claim C8: on a disabled store, `log` returns the empty structure and the
unchanged store — no partition file gains a line, and every query returns
exactly what it returned before the call. -/
theorem claim_C8 (s : Store) (u ty : String) (dets : Option (List (String × String)))
    (src now : String) (hdis : s.enabled = false) :
    log s u ty dets src now = (none, s) ∧
    (log s u ty dets src now).2.files = s.files ∧
    (∀ q, get_activities (log s u ty dets src now).2 q = get_activities s q) := by
  have h : log s u ty dets src now = (none, s) := by
    unfold log
    rw [hdis]
    rfl
  exact ⟨h, by rw [h], fun q => by rw [h]⟩

/-- Witness for C8: a disabled store already holding one record; logging is a
no-op and a default query is unchanged. -/
theorem claim_C8_witness :
    c8Store.enabled = false ∧
    log c8Store "alice" "login" none "web" "2024-01-02T00:00:00" = (none, c8Store) ∧
    get_activities (log c8Store "alice" "login" none "web" "2024-01-02T00:00:00").2 {} =
      get_activities c8Store {} :=
  ⟨rfl,
   (claim_C8 c8Store "alice" "login" none "web" "2024-01-02T00:00:00" rfl).1,
   (claim_C8 c8Store "alice" "login" none "web" "2024-01-02T00:00:00" rfl).2.2 {}⟩

/-- Counterexample to claim C9 as stated: with two stored records,
`query(limit=-1, offset=0)` raises nothing and returns exactly the newest
record — a proper non-empty strict subset, neither the empty sequence nor the
complete filtered sequence (which `query(limit=2)` shows to be both records). -/
theorem claim_C9_counterexample :
    get_activities c9Store { limit := -1 } = [c9RecNew] ∧
    [c9RecNew] ≠ ([] : List ActivityRecord) ∧
    get_activities c9Store { limit := 2 } = [c9RecNew, c9RecOld] ∧
    [c9RecNew] ≠ [c9RecNew, c9RecOld] :=
  ⟨by decide, by decide, by decide, by decide⟩

/-- Claim C9 (amended): negative or zero `limit`/`offset` are not validated
and pass straight to Python slicing semantics; a zero limit always yields the
empty result, while negative values may yield an empty, full, or proper
intermediate portion of the filtered sequence (`limit=-1` drops the oldest
record, `offset=-1` keeps only the oldest, `offset=-5` with two records yields
everything). -/
theorem claim_C9_amended :
    (∀ (s : Store) (u a st e : Option String) (off : Int),
      get_activities s
        { user := u, activity_type := a, start_time := st,
          end_time := e, limit := 0, offset := off } = []) ∧
    get_activities c9Store { limit := -1 } = [c9RecNew] ∧
    get_activities c9Store { offset := -1 } = [c9RecOld] ∧
    get_activities c9Store { offset := -5 } = [c9RecNew, c9RecOld] := by
  refine ⟨?_, by decide, by decide, by decide⟩
  intro s u a st e off
  unfold get_activities
  rw [show off + (0 : Int) = off from by omega]
  exact pySlice_same off _

/-- Claim C10: passing `user=""` (or `activity_type=""`) behaves exactly as
omitting the filter — the empty string is falsy, so the query returns records
of every user (respectively every activity type), not only records whose own
field equals the empty string. -/
theorem claim_C10 (s : Store) (u a st e : Option String) (lim off : Int) :
    get_activities s
      { user := some "", activity_type := a, start_time := st,
        end_time := e, limit := lim, offset := off } =
      get_activities s
        { user := none, activity_type := a, start_time := st,
          end_time := e, limit := lim, offset := off } ∧
    get_activities s
      { user := u, activity_type := some "", start_time := st,
        end_time := e, limit := lim, offset := off } =
      get_activities s
        { user := u, activity_type := none, start_time := st,
          end_time := e, limit := lim, offset := off } := by
  constructor
  · exact get_activities_congr (fun r => rfl) rfl rfl
  · exact get_activities_congr (fun r => rfl) rfl rfl

end ActivityLog
